import Mathlib

set_option maxRecDepth 20000

/-!
Verification of the beatlabs/github-auth repository: a shallow embedding of
the jwt token exchange (src/jwt/config.go), the JWT payload signer
(src/jwt/jwt.go, with the jws helper modelled from the spec), the App-level
transport (src/jwt/jwt.go), the endpoint resolver (endpoint package, which
delegates to Go's net/url, modelled here from the net/url sources), and the
app/inst configuration constructors.

Machine integers do not occur in the relevant code paths; times are modelled
as natural numbers of nanoseconds since the Unix epoch (Go time.Duration is
an integer nanosecond count, time.Time.Unix() divides it down to seconds).
External collaborators that the code calls are modelled as follows:
Go encoding/json is implemented concretely below (the repository decodes
small JSON documents with it); time.Parse with the RFC3339 layout is an
opaque parameter (String → Option Int); the RSA-SHA256 signature operation
is an opaque parameter; net/url is translated from its Go source.
-/

namespace GithubAuth

/-! ## Character and list helpers (Go strings/bytes primitives) -/

/-- ASCII lowercase of one character (Go strings.ToLower on the ASCII
scheme names this code handles). -/
def lowerChar (c : Char) : Char :=
  if 'A' ≤ c ∧ c ≤ 'Z' then Char.ofNat (c.toNat + 32) else c

/-- ASCII lowercase of a string. -/
def lowerStr (s : String) : String := String.mk (s.data.map lowerChar)

/-- The left brace character (written numerically throughout). -/
def lbrace : Char := Char.ofNat 123

/-- The right brace character. -/
def rbrace : Char := Char.ofNat 125

/-- Go strings.Cut at a one-character separator: returns the part before the
first occurrence and the part after it, or none when the separator is
absent. -/
def cutAt (c : Char) : List Char → Option (List Char × List Char)
  | [] => none
  | x :: xs =>
    if x = c then some ([], xs)
    else
      match cutAt c xs with
      | none => none
      | some (a, b) => some (x :: a, b)

/-- Go strings.LastIndex for a one-character needle: index of the last
occurrence, if any. -/
def lastIdxOf (c : Char) : List Char → Option Nat
  | [] => none
  | x :: xs =>
    match lastIdxOf c xs with
    | some i => some (i + 1)
    | none => if x = c then some 0 else none

/-- Decimal digit test. -/
def isDigit (c : Char) : Bool := '0' ≤ c ∧ c ≤ '9'

/-- ASCII letter/digit test. -/
def isAlnum (c : Char) : Bool :=
  ('a' ≤ c ∧ c ≤ 'z') ∨ ('A' ≤ c ∧ c ≤ 'Z') ∨ ('0' ≤ c ∧ c ≤ '9')

/-- Value of a hexadecimal digit. -/
def hexVal (c : Char) : Option Nat :=
  if '0' ≤ c ∧ c ≤ '9' then some (c.toNat - '0'.toNat)
  else if 'a' ≤ c ∧ c ≤ 'f' then some (c.toNat - 'a'.toNat + 10)
  else if 'A' ≤ c ∧ c ≤ 'F' then some (c.toNat - 'A'.toNat + 10)
  else none

/-! ## JSON values and the Go encoding/json parser

The repository hands small response bodies to Go encoding/json.  `Json` is
the parse tree; numbers keep their raw token (Go decodes them to float64,
but no code path in this repository looks at a numeric value, only at the
dynamic type). -/

inductive Json where
  | null : Json
  | bool : Bool → Json
  | num : String → Json
  | str : String → Json
  | arr : List Json → Json
  | obj : List (String × Json) → Json
deriving Inhabited

/-- JSON whitespace test (space, tab, newline, carriage return). -/
def isWs (c : Char) : Bool := c == ' ' || c == '\t' || c == '\n' || c == '\r'

/-- Drop leading JSON whitespace. -/
def skipWs : List Char → List Char
  | [] => []
  | c :: cs => if isWs c then skipWs cs else c :: cs

/-- Body of a JSON string after the opening quote: returns the decoded
characters and the input after the closing quote.  Standard escapes are
honoured; a \uXXXX escape becomes the character with that code (surrogate
pair combination is not modelled; no input in this development uses it).
Unescaped control characters are rejected, as in Go. -/
def parseStrBody : Nat → List Char → Option (List Char × List Char)
  | 0, _ => none
  | _, [] => none
  | fuel + 1, c :: cs =>
    if c = '"' then some ([], cs)
    else if c = '\\' then
      match cs with
      | [] => none
      | e :: cs2 =>
        if e = '"' ∨ e = '\\' ∨ e = '/' then
          match parseStrBody fuel cs2 with
          | none => none
          | some (out, r) => some (e :: out, r)
        else if e = 'b' then
          match parseStrBody fuel cs2 with
          | none => none
          | some (out, r) => some (Char.ofNat 8 :: out, r)
        else if e = 'f' then
          match parseStrBody fuel cs2 with
          | none => none
          | some (out, r) => some (Char.ofNat 12 :: out, r)
        else if e = 'n' then
          match parseStrBody fuel cs2 with
          | none => none
          | some (out, r) => some ('\n' :: out, r)
        else if e = 'r' then
          match parseStrBody fuel cs2 with
          | none => none
          | some (out, r) => some ('\r' :: out, r)
        else if e = 't' then
          match parseStrBody fuel cs2 with
          | none => none
          | some (out, r) => some ('\t' :: out, r)
        else if e = 'u' then
          match cs2 with
          | a :: b :: c2 :: d2 :: cs3 =>
            match hexVal a, hexVal b, hexVal c2, hexVal d2 with
            | some ha, some hb, some hc, some hd =>
              match parseStrBody fuel cs3 with
              | none => none
              | some (out, r) =>
                some (Char.ofNat (((ha * 16 + hb) * 16 + hc) * 16 + hd) :: out, r)
            | _, _, _, _ => none
          | _ => none
        else none
    else if c.toNat < 32 then none
    else
      match parseStrBody fuel cs with
      | none => none
      | some (out, r) => some (c :: out, r)

/-- Longest digit run at the head of the input. -/
def digitSpan : List Char → List Char × List Char
  | [] => ([], [])
  | c :: cs =>
    if isDigit c then
      match digitSpan cs with
      | (a, b) => (c :: a, b)
    else ([], c :: cs)

/-- Integer part of a JSON number: a single 0 or a nonzero digit followed by
digits. -/
def parseIntPart : List Char → Option (List Char × List Char)
  | [] => none
  | c :: cs =>
    if c = '0' then some ([c], cs)
    else if isDigit c then
      match digitSpan cs with
      | (a, b) => some (c :: a, b)
    else none

/-- Optional fraction part of a JSON number. -/
def parseFracPart : List Char → Option (List Char × List Char)
  | [] => some ([], [])
  | c :: cs =>
    if c = '.' then
      match digitSpan cs with
      | ([], _) => none
      | (a, b) => some (c :: a, b)
    else some ([], c :: cs)

/-- Optional exponent part of a JSON number. -/
def parseExpPart : List Char → Option (List Char × List Char)
  | [] => some ([], [])
  | c :: cs =>
    if c = 'e' ∨ c = 'E' then
      match cs with
      | [] => none
      | s :: cs2 =>
        if s = '+' ∨ s = '-' then
          match digitSpan cs2 with
          | ([], _) => none
          | (a, b) => some (c :: s :: a, b)
        else
          match digitSpan cs with
          | ([], _) => none
          | (a, b) => some (c :: a, b)
    else some ([], c :: cs)

/-- A JSON number token (sign, integer, fraction, exponent), returned raw. -/
def parseNum (l : List Char) : Option (List Char × List Char) :=
  let (sgn, rest) :=
    match l with
    | c :: cs => if c = '-' then ([c], cs) else (([] : List Char), l)
    | [] => (([] : List Char), l)
  match parseIntPart rest with
  | none => none
  | some (ip, r1) =>
    match parseFracPart r1 with
    | none => none
    | some (fp, r2) =>
      match parseExpPart r2 with
      | none => none
      | some (ep, r3) => some (sgn ++ ip ++ fp ++ ep, r3)

mutual

/-- One JSON value (fuel-indexed; the fuel passed by `jparse` always
suffices because every recursive call first consumes input). -/
def parseVal : Nat → List Char → Option (Json × List Char)
  | 0, _ => none
  | fuel + 1, l =>
    match skipWs l with
    | [] => none
    | c :: cs =>
      if c = lbrace then
        match skipWs cs with
        | [] => none
        | c2 :: cs2 =>
          if c2 = rbrace then some (.obj [], cs2)
          else
            match parseMembers fuel (c2 :: cs2) with
            | some (fs, rest) => some (.obj fs, rest)
            | none => none
      else if c = '[' then
        match skipWs cs with
        | [] => none
        | c2 :: cs2 =>
          if c2 = ']' then some (.arr [], cs2)
          else
            match parseElems fuel (c2 :: cs2) with
            | some (xs, rest) => some (.arr xs, rest)
            | none => none
      else if c = '"' then
        match parseStrBody (cs.length + 1) cs with
        | some (s, rest) => some (.str (String.mk s), rest)
        | none => none
      else
        match c :: cs with
        | 'n' :: 'u' :: 'l' :: 'l' :: r => some (.null, r)
        | 't' :: 'r' :: 'u' :: 'e' :: r => some (.bool true, r)
        | 'f' :: 'a' :: 'l' :: 's' :: 'e' :: r => some (.bool false, r)
        | l2 =>
          match parseNum l2 with
          | some (raw, rest) => some (.num (String.mk raw), rest)
          | none => none

/-- Nonempty member list of a JSON object, up to and including the closing
brace. -/
def parseMembers : Nat → List Char → Option (List (String × Json) × List Char)
  | 0, _ => none
  | fuel + 1, l =>
    match skipWs l with
    | [] => none
    | c :: cs =>
      if c = '"' then
        match parseStrBody (cs.length + 1) cs with
        | none => none
        | some (k, r2) =>
          match skipWs r2 with
          | [] => none
          | c3 :: r3 =>
            if c3 = ':' then
              match parseVal fuel r3 with
              | none => none
              | some (v, r4) =>
                match skipWs r4 with
                | [] => none
                | c5 :: r5 =>
                  if c5 = ',' then
                    match parseMembers fuel r5 with
                    | some (fs, r6) => some ((String.mk k, v) :: fs, r6)
                    | none => none
                  else if c5 = rbrace then some ([(String.mk k, v)], r5)
                  else none
            else none
      else none

/-- Nonempty element list of a JSON array, up to and including the closing
bracket. -/
def parseElems : Nat → List Char → Option (List Json × List Char)
  | 0, _ => none
  | fuel + 1, l =>
    match parseVal fuel l with
    | none => none
    | some (v, r) =>
      match skipWs r with
      | [] => none
      | c :: cs =>
        if c = ',' then
          match parseElems fuel cs with
          | some (xs, r2) => some (v :: xs, r2)
          | none => none
        else if c = ']' then some ([v], cs)
        else none

end

/-- Go json.Unmarshal's syntactic layer: parse one JSON document and require
only trailing whitespace after it. -/
def jparse (s : String) : Option Json :=
  match parseVal (s.data.length + 2) s.data with
  | none => none
  | some (j, rest) => if skipWs rest = [] then some j else none

/-! ## Decoding the token response struct (src/jwt/config.go lines 99-104)

The anonymous struct in jwtSource.Token has fields
AccessToken `json:"token"`, ExpiresAt `json:"expires_at"` and an untagged
TokenType, all strings.  Go matches object keys to fields
case-insensitively (exact matches are preferred, which only matters when
two keys differ by case alone), later duplicate keys overwrite earlier
ones, a null value leaves a field untouched, and a value of any other
non-string type is an unmarshalling error. -/

structure TokenRes where
  accessToken : String := ""
  expiresAt : String := ""
  tokenType : String := ""
deriving DecidableEq, Inhabited

/-- Apply one object member to the token response struct. -/
def setField (tr : TokenRes) (k : String) (v : Json) : Option TokenRes :=
  let lk := lowerStr k
  if lk = "token" then
    match v with
    | .str s => some { tr with accessToken := s }
    | .null => some tr
    | _ => none
  else if lk = "expires_at" then
    match v with
    | .str s => some { tr with expiresAt := s }
    | .null => some tr
    | _ => none
  else if lk = "tokentype" then
    match v with
    | .str s => some { tr with tokenType := s }
    | .null => some tr
    | _ => none
  else some tr

/-- Fold all object members into the struct, in order. -/
def setFields : TokenRes → List (String × Json) → Option TokenRes
  | tr, [] => some tr
  | tr, (k, v) :: fs =>
    match setField tr k v with
    | none => none
    | some tr2 => setFields tr2 fs

/-- Go json.Unmarshal of the response body into the tokenRes struct:
syntactically invalid bodies and non-object, non-null top-level values are
errors; a null body is a no-op success. -/
def decodeTokenRes : Option Json → Option TokenRes
  | none => none
  | some .null => some {}
  | some (.obj fs) => setFields {} fs
  | some _ => none

/-! ## The dynamic extras bag (src/jwt/config.go lines 111-114)

json.Unmarshal into map[string]interface{} produces values whose dynamic Go
types range over nil, bool, float64, string, []interface{} and
map[string]interface{} only.  `GoValue` is that dynamic-type universe,
extended with the map[string]string type so that the type assertion in
inst.Config.Permissions is representable as a non-trivial match. -/

inductive GoValue where
  | nil : GoValue
  | bool : Bool → GoValue
  | num : String → GoValue
  | str : String → GoValue
  | arr : List GoValue → GoValue
  | mapSI : List (String × GoValue) → GoValue
  | mapSS : List (String × String) → GoValue
deriving Inhabited

mutual

/-- The interface{} value that json.Unmarshal produces for a JSON value. -/
def jsonToGo : Json → GoValue
  | .null => .nil
  | .bool b => .bool b
  | .num s => .num s
  | .str s => .str s
  | .arr xs => .arr (jsonToGoList xs)
  | .obj fs => .mapSI (jsonToGoFields fs)

/-- Pointwise conversion of array elements. -/
def jsonToGoList : List Json → List GoValue
  | [] => []
  | j :: js => jsonToGo j :: jsonToGoList js

/-- Pointwise conversion of object members. -/
def jsonToGoFields : List (String × Json) → List (String × GoValue)
  | [] => []
  | (k, v) :: fs => (k, jsonToGo v) :: jsonToGoFields fs

end

/-- The extras bag attached by jwtSource.Token: the body decoded into
map[string]interface{}, with the decode error deliberately ignored (the
`raw` map stays empty when the body is not a JSON object). -/
def rawExtrasStr (body : String) : List (String × GoValue) :=
  match jparse body with
  | some (.obj fs) => jsonToGoFields fs
  | _ => []

/-- Lookup in the extras association list with Go map semantics: the last
occurrence of a duplicated key wins (later Unmarshal assignments overwrite
earlier ones). -/
def lookupLast (k : String) : List (String × GoValue) → Option GoValue
  | [] => none
  | (k2, v) :: fs =>
    match lookupLast k fs with
    | some r => some r
    | none => if k2 = k then some v else none

/-! ## jwtSource.Token response handling (src/jwt/config.go lines 88-122) -/

/-- An HTTP response as jwtSource.Token sees it after reading the body:
numeric status code, the status line text (for 400 this is
"400 Bad Request"), and the raw body. -/
structure Response where
  statusCode : Nat := 200
  status : String := ""
  body : String := ""
deriving DecidableEq, Inhabited

/-- The errors jwtSource.Token can return: oauth2.RetrieveError carrying
the HTTP status and the raw body verbatim, or a wrapped fetch error. -/
inductive TokenError where
  | retrieveError : String → String → TokenError
  | fetchError : String → TokenError
deriving DecidableEq

/-- Error rendering: oauth2.RetrieveError.Error() formats
"oauth2: cannot fetch token: <status>\nResponse: <body>" (asserted verbatim
by the repository's own TestTokenRetrieveError). -/
def renderTokenError : TokenError → String
  | .retrieveError st bd => "oauth2: cannot fetch token: " ++ st ++ "\nResponse: " ++ bd
  | .fetchError m => m

/-- The oauth2.Token produced on success: Value, the normalized TokenType,
the optional expiry (none models Go's zero time.Time), and the extras bag. -/
structure Token where
  accessToken : String := ""
  tokenType : String := ""
  expiry : Option Int := none
  extras : List (String × GoValue) := []

/-- The &oauth2.Token literal plus WithExtra of src/jwt/config.go lines
105-114: Value from the "token" field, TokenType hard-coded to "token",
and the best-effort extras bag from the whole body. -/
def tokenOf (tr : TokenRes) (body : String) : Token :=
  { accessToken := tr.accessToken, tokenType := "token",
    expiry := none, extras := rawExtrasStr body }

/-- jwtSource.Token from the point the response is in hand
(src/jwt/config.go lines 88-122): non-2xx statuses become a RetrieveError
with the verbatim body; otherwise the body is decoded strictly into the
tokenRes struct, the token is built by `tokenOf`, and a nonempty
expires_at must parse under time.Parse(time.RFC3339, ·), here the opaque
parameter `pt` (some = parsed instant, none = parse error). -/
def tokenFromResponse (pt : String → Option Int) (resp : Response) :
    Except TokenError Token :=
  if resp.statusCode < 200 ∨ 299 < resp.statusCode then
    .error (.retrieveError resp.status resp.body)
  else
    match decodeTokenRes (jparse resp.body) with
    | none => .error (.fetchError "oauth2: cannot fetch token: invalid response body")
    | some tr =>
      if tr.expiresAt = "" then .ok (tokenOf tr resp.body)
      else
        match pt tr.expiresAt with
        | none => .error (.fetchError "oauth2: cannot fetch token: invalid expires_at")
        | some t => .ok { tokenOf tr resp.body with expiry := some t }

/-- Go type assertion extra.(map[string]string) applied to the result of
Token.Extra (nil when the key is absent): it succeeds only on a value whose
dynamic type is exactly map[string]string. -/
def asMapSS : Option GoValue → Option (List (String × String))
  | some (.mapSS m) => some m
  | _ => none

/-- inst.Config.Permissions: fetch a token, read the "permissions" extra and
assert it to map[string]string (endpoint package file, lines 240-254 of the
installation config source). -/
def permissionsOf (pt : String → Option Int) (resp : Response) :
    Except String (List (String × String)) :=
  match tokenFromResponse pt resp with
  | .error _ => .error "failed to get token"
  | .ok tok =>
    match asMapSS (lookupLast "permissions" tok.extras) with
    | none => .error "failed to get permissions from extra field"
    | some pp => .ok pp

/-! ## The jws signer and JWT.Payload (src/jwt/jwt.go lines 43-57)

Modelled from the spec: the jws package (github.com/beatlabs/github-auth/jws:
Header, ClaimSet, Encode) is not under src/.  Per spec §4.2, Encode
serializes the fixed header and the claim set, base64url-encodes both
without padding, signs `encodedHeader "." encodedClaims` with the private
key under RSA-SHA256, and returns
`encodedHeader "." encodedClaims "." encodedSignature`.  The RSA signature
primitive is the opaque parameter `sgn` (the private-key type is the type
parameter K); serialization of header and claims is plain JSON. -/

structure JWSHeader where
  algorithm : String
  typ : String
deriving DecidableEq

structure ClaimSet where
  iss : String
  exp : Option Nat
deriving DecidableEq

/-- JSON serialization of the header. -/
def headerJson (h : JWSHeader) : String :=
  "\x7b\"alg\":\"" ++ h.algorithm ++ "\",\"typ\":\"" ++ h.typ ++ "\"\x7d"

/-- JSON serialization of the claim set; the expiry field is omitted when
absent. -/
def claimsJson (c : ClaimSet) : String :=
  match c.exp with
  | none => "\x7b\"iss\":\"" ++ c.iss ++ "\"\x7d"
  | some e => "\x7b\"iss\":\"" ++ c.iss ++ "\",\"exp\":" ++ toString e ++ "\x7d"

/-- The base64url alphabet (RFC 4648 §5). -/
def b64Alphabet : List Char :=
  "ABCDEFGHIJKLMNOPQRSTUVWXYZabcdefghijklmnopqrstuvwxyz0123456789-_".data

/-- Character for one 6-bit group. -/
def b64char (n : Nat) : Char := b64Alphabet.getD n 'A'

/-- Unpadded base64url encoding of a byte sequence. -/
def b64encode : List Nat → List Char
  | [] => []
  | [b1] => [b64char (b1 / 4), b64char (b1 % 4 * 16)]
  | [b1, b2] => [b64char (b1 / 4), b64char (b1 % 4 * 16 + b2 / 16), b64char (b2 % 16 * 4)]
  | b1 :: b2 :: b3 :: rest =>
    b64char (b1 / 4) :: b64char (b1 % 4 * 16 + b2 / 16) ::
      b64char (b2 % 16 * 4 + b3 / 64) :: b64char (b3 % 64) :: b64encode rest

/-- Bytes of a string.  The serializations signed in this development are
ASCII, where the code points are the UTF-8 bytes. -/
def strBytes (s : String) : List Nat := s.data.map Char.toNat

/-- Unpadded base64url encoding of a string's bytes. -/
def b64s (s : String) : String := String.mk (b64encode (strBytes s))

variable {K : Type}

/-- Modelled from the spec: jws.Encode.  `sgn` is the RSA-SHA256 signature
operation over the signing input's bytes; it may fail (malformed key). -/
def jwsEncode (sgn : K → List Nat → Except String (List Nat))
    (h : JWSHeader) (c : ClaimSet) (key : K) : Except String String :=
  let head := b64s (headerJson h)
  let cl := b64s (claimsJson c)
  let si := head ++ "." ++ cl
  match sgn key (strBytes si) with
  | .error e => .error e
  | .ok sig => .ok (si ++ "." ++ String.mk (b64encode sig))

/-- Nanoseconds per second (Go time.Duration is an integer count of
nanoseconds). -/
def nsPerSec : Nat := 1000000000

/-- The JWT identity (src/jwt/jwt.go): app ID, private key, and the
optional assertion lifetime as a Go time.Duration. -/
structure JWTConf (K : Type) where
  appID : String
  privateKey : K
  expires : Nat := 0

/-- The fixed header used by JWT.Payload:
jws.Header{Algorithm: "RS256", Typ: "JWT"}. -/
def defaultHeader : JWSHeader := { algorithm := "RS256", typ := "JWT" }

/-- The claim set JWT.Payload builds (src/jwt/jwt.go lines 44-49): issuer is
the app ID; when Expires is positive the expiry is
time.Now().Add(Expires).Unix(), i.e. the nanosecond instant `now` plus
Expires, in seconds.  `now` is nanoseconds since the Unix epoch. -/
def claimSetOf (j : JWTConf K) (now : Nat) : ClaimSet :=
  { iss := j.appID,
    exp := if 0 < j.expires then some ((now + j.expires) / nsPerSec) else none }

/-- JWT.Payload (src/jwt/jwt.go lines 43-57): encode the fixed header and
the fresh claim set with the private key. -/
def payloadE (sgn : K → List Nat → Except String (List Nat))
    (j : JWTConf K) (now : Nat) : Except String String :=
  jwsEncode sgn defaultHeader (claimSetOf j now) j.privateKey

/-! ## The App transport (src/jwt/jwt.go lines 74-82) -/

/-- An outgoing HTTP request: method, URL, optional body, and headers in
insertion order. -/
structure Request where
  method : String := ""
  url : String := ""
  body : Option String := none
  headers : List (String × String) := []
deriving DecidableEq

/-- Header.Add: append a header. -/
def addHeader (r : Request) (k v : String) : Request :=
  { r with headers := r.headers ++ [(k, v)] }

/-- transport.RoundTrip (src/jwt/jwt.go lines 74-82): add the Accept header,
sign a fresh payload at the current instant, and on success add the
Authorization bearer header and delegate to the underlying transport
`next`; a signing failure is returned without dispatching. -/
def roundTrip (sgn : K → List Nat → Except String (List Nat))
    (j : JWTConf K) (now : Nat)
    (next : Request → Except String Response) (r : Request) :
    Except String Response :=
  let r1 := addHeader r "Accept" "application/vnd.github.v3+json"
  match payloadE sgn j now with
  | .error e => .error e
  | .ok p => next (addHeader r1 "Authorization" ("Bearer " ++ p))

/-! ## The jwt.Config and the token request (src/jwt/config.go lines 27-87) -/

/-- The repository scope of jwt.Config: names are tagged
`json:"repositories,omitempty"`, IDs `json:"repository_ids,omitempty"`. -/
structure Repositories where
  names : List String := []
  ids : List String := []
deriving DecidableEq

/-- jwt.Config: the JWT identity, the repository scope, and the token
endpoint URL. -/
structure Config (K : Type) where
  jwt : JWTConf K
  repositories : Repositories := {}
  tokenURL : String := ""

/-- json.Marshal of the Repositories struct: with omitempty an empty list
contributes no field at all. -/
def repositoriesJson (r : Repositories) : Json :=
  Json.obj
    ((if r.names.isEmpty then [] else
        [("repositories", Json.arr (r.names.map Json.str))]) ++
     (if r.ids.isEmpty then [] else
        [("repository_ids", Json.arr (r.ids.map Json.str))]))

/-- The request jwtSource.Token builds (src/jwt/config.go lines 68-87).
The source JSON-encodes the Repositories scope into a fresh buffer (the
unused `_repos` below) and then calls
http.NewRequest(http.MethodPost, TokenURL, nil): the buffer is never
attached, so the request body is nil.  The Accept header is added, the
payload is signed (a failure aborts), and the Authorization bearer header
is added. -/
def tokenRequestE (sgn : K → List Nat → Except String (List Nat))
    (conf : Config K) (now : Nat) : Except String Request :=
  let _repos := repositoriesJson conf.repositories
  match payloadE sgn conf.jwt now with
  | .error e => .error e
  | .ok p =>
    .ok { method := "POST", url := conf.tokenURL, body := none,
          headers := [("Accept", "application/vnd.github.v3+json"),
                      ("Authorization", "Bearer " ++ p)] }

/-! ## Go net/url (the endpoint package's collaborator)

The endpoint package is three thin wrappers over Go net/url: url.Parse,
url.ParseRequestURI and URL.ResolveReference/String.  The definitions below
are translated from the Go net/url sources (url.go).  Simplifications, none
of which the endpoint claims exercise: IPv6 zone identifiers in hosts are
not modelled, and the userinfo component is stored raw once validated
instead of being split into unescaped username and password.  Error values
carry the net/url message text. -/

/-- The Go URL encoding modes of shouldEscape/unescape. -/
inductive Enc where
  | path
  | pathSegment
  | host
  | zone
  | userPassword
  | queryComponent
  | fragment
deriving DecidableEq

/-- net/url shouldEscape: whether a byte must be percent-encoded in the
given mode (translated case for case from url.go). -/
def shouldEscapeC (c : Char) (mode : Enc) : Bool :=
  if isAlnum c then false
  else if (mode = .host ∨ mode = .zone) ∧
      (c = '!' ∨ c = '$' ∨ c = '&' ∨ c = Char.ofNat 39 ∨ c = '(' ∨ c = ')' ∨
       c = '*' ∨ c = '+' ∨ c = ',' ∨ c = ';' ∨ c = '=' ∨ c = ':' ∨
       c = '[' ∨ c = ']' ∨ c = '<' ∨ c = '>' ∨ c = '"') then false
  else if c = '-' ∨ c = '_' ∨ c = '.' ∨ c = '~' then false
  else if c = '$' ∨ c = '&' ∨ c = '+' ∨ c = ',' ∨ c = '/' ∨ c = ':' ∨
          c = ';' ∨ c = '=' ∨ c = '?' ∨ c = '@' then
    match mode with
    | .path => c = '?'
    | .pathSegment => c = '/' ∨ c = ';' ∨ c = ',' ∨ c = '?'
    | .userPassword => c = '@' ∨ c = '/' ∨ c = '?' ∨ c = ':'
    | .queryComponent => true
    | .fragment => false
    | _ => true
  else if mode = .fragment ∧ (c = '!' ∨ c = '(' ∨ c = ')' ∨ c = '*') then false
  else true

/-- Uppercase hexadecimal digit. -/
def hexDigitU (n : Nat) : Char := "0123456789ABCDEF".data.getD n '0'

/-- net/url escape: percent-encode every byte the mode requires (the inputs
in this development are ASCII, one byte per character); in query mode a
space becomes '+'. -/
def escapeGo : List Char → Enc → List Char
  | [], _ => []
  | c :: cs, mode =>
    if c = ' ' ∧ mode = .queryComponent then '+' :: escapeGo cs mode
    else if shouldEscapeC c mode then
      '%' :: hexDigitU (c.toNat / 16) :: hexDigitU (c.toNat % 16) :: escapeGo cs mode
    else c :: escapeGo cs mode

/-- net/url unescape: decode percent escapes, rejecting malformed escapes,
host escapes below 0x80 other than %25, and characters that may not appear
unescaped in a host. -/
def unescapeGo (mode : Enc) : List Char → Option (List Char)
  | [] => some []
  | c :: cs =>
    if c = '%' then
      match cs with
      | a :: b :: cs2 =>
        match hexVal a, hexVal b with
        | some ha, some hb =>
          if mode = .host ∧ ha < 8 ∧ ¬(a = '2' ∧ b = '5') then none
          else
            match unescapeGo mode cs2 with
            | none => none
            | some r => some (Char.ofNat (ha * 16 + hb) :: r)
        | _, _ => none
      | _ => none
    else if c = '+' ∧ mode = .queryComponent then
      match unescapeGo mode cs with
      | none => none
      | some r => some (' ' :: r)
    else if (mode = .host ∨ mode = .zone) ∧ c.toNat < 128 ∧ shouldEscapeC c mode then
      none
    else
      match unescapeGo mode cs with
      | none => none
      | some r => some (c :: r)

/-- The Go net/url URL struct (fields this repository's flows can reach). -/
structure GoURL where
  scheme : String := ""
  opq : String := ""
  user : Option String := none
  host : String := ""
  path : String := ""
  rawPath : String := ""
  forceQuery : Bool := false
  rawQuery : String := ""
  fragment : String := ""
  rawFragment : String := ""
  omitHost : Bool := false
deriving DecidableEq, Inhabited

/-- URL.setPath: store the unescaped path, remembering the raw form only
when it differs from the re-escaped clean form. -/
def setPathGo (u : GoURL) (p : List Char) : Option GoURL :=
  match unescapeGo .path p with
  | none => none
  | some dec =>
    if escapeGo dec .path = p then
      some { u with path := String.mk dec, rawPath := "" }
    else
      some { u with path := String.mk dec, rawPath := String.mk p }

/-- URL.setFragment, analogous to setPath. -/
def setFragmentGo (u : GoURL) (f : List Char) : Option GoURL :=
  match unescapeGo .fragment f with
  | none => none
  | some dec =>
    if escapeGo dec .fragment = f then
      some { u with fragment := String.mk dec, rawFragment := "" }
    else
      some { u with fragment := String.mk dec, rawFragment := String.mk f }

/-- net/url validEncoded: can the string be used verbatim as an encoded
path/fragment. -/
def validEncoded (s : List Char) (mode : Enc) : Bool :=
  s.all fun c =>
    if c = '!' ∨ c = '$' ∨ c = '&' ∨ c = Char.ofNat 39 ∨ c = '(' ∨ c = ')' ∨
        c = '*' ∨ c = '+' ∨ c = ',' ∨ c = ';' ∨ c = '=' ∨ c = ':' ∨ c = '@' then true
    else if c = '[' ∨ c = ']' then true
    else if c = '%' then true
    else ¬ shouldEscapeC c mode

/-- URL.EscapedPath. -/
def escapedPath (u : GoURL) : List Char :=
  if u.rawPath ≠ "" ∧ validEncoded u.rawPath.data .path ∧
      unescapeGo .path u.rawPath.data = some u.path.data then
    u.rawPath.data
  else if u.path = "*" then [Char.ofNat 42]
  else escapeGo u.path.data .path

/-- URL.EscapedFragment. -/
def escapedFragment (u : GoURL) : List Char :=
  if u.rawFragment ≠ "" ∧ validEncoded u.rawFragment.data .fragment ∧
      unescapeGo .fragment u.rawFragment.data = some u.fragment.data then
    u.rawFragment.data
  else escapeGo u.fragment.data .fragment

/-- net/url validOptionalPort: empty, or a colon followed by digits. -/
def validOptionalPort (port : List Char) : Bool :=
  match port with
  | [] => true
  | c :: rest => c = ':' ∧ rest.all isDigit

/-- net/url validUserinfo. -/
def validUserinfo (s : List Char) : Bool :=
  s.all fun c =>
    isAlnum c ∨ c = '-' ∨ c = '.' ∨ c = '_' ∨ c = ':' ∨ c = '~' ∨ c = '!' ∨
    c = '$' ∨ c = '&' ∨ c = Char.ofNat 39 ∨ c = '(' ∨ c = ')' ∨ c = '*' ∨
    c = '+' ∨ c = ',' ∨ c = ';' ∨ c = '=' ∨ c = '%' ∨ c = '@'

/-- net/url parseHost: validate the optional port (with bracketed IPv6
hosts handled by locating the closing bracket) and unescape the host. -/
def parseHostGo (host : List Char) : Option (List Char) :=
  let ok : Bool :=
    match host with
    | c :: _ =>
      if c = '[' then
        match lastIdxOf ']' host with
        | none => false
        | some i => validOptionalPort (host.drop (i + 1))
      else
        match lastIdxOf ':' host with
        | none => true
        | some i => validOptionalPort (host.drop i)
    | [] => true
  if ok then unescapeGo .host host else none

/-- net/url parseAuthority: split at the last '@' into userinfo and host. -/
def parseAuthorityGo (authority : List Char) :
    Except String (Option String × List Char) :=
  match lastIdxOf '@' authority with
  | none =>
    match parseHostGo authority with
    | none => .error "invalid host"
    | some h => .ok (none, h)
  | some i =>
    match parseHostGo (authority.drop (i + 1)) with
    | none => .error "invalid host"
    | some h =>
      let userinfo := authority.take i
      if validUserinfo userinfo then .ok (some (String.mk userinfo), h)
      else .error "net/url: invalid userinfo"

/-- net/url getScheme: scan for a scheme and its colon; a leading digit,
plus, minus or dot, or any other non-letter, means no scheme; a colon at
position zero is an error. -/
def getSchemeAux (orig : List Char) (i : Nat) :
    List Char → Except String (List Char × List Char)
  | [] => .ok ([], orig)
  | c :: cs =>
    if ('a' ≤ c ∧ c ≤ 'z') ∨ ('A' ≤ c ∧ c ≤ 'Z') then getSchemeAux orig (i + 1) cs
    else if ('0' ≤ c ∧ c ≤ '9') ∨ c = '+' ∨ c = '-' ∨ c = '.' then
      if i = 0 then .ok ([], orig) else getSchemeAux orig (i + 1) cs
    else if c = ':' then
      if i = 0 then .error "missing protocol scheme"
      else .ok (orig.take i, orig.drop (i + 1))
    else .ok ([], orig)

/-- Control-character test of net/url (bytes below 0x20 and 0x7f). -/
def hasCtl (l : List Char) : Bool := l.any fun c => c.toNat < 32 ∨ c.toNat = 127

/-- List-level prefix test. -/
def startsWith (l p : List Char) : Bool := p.isPrefixOf l

/-- Finish net/url parse: set the path, surfacing escape errors. -/
def finishPath (u : GoURL) (rest : List Char) : Except String GoURL :=
  match setPathGo u rest with
  | none => .error "invalid URL escape"
  | some u2 => .ok u2

/-- Second half of net/url parse, after scheme and query extraction:
opaque component, the viaRequest restrictions, the authority, and the
path. -/
def parseGo2 (scheme : String) (rest rawQuery : List Char)
    (forceQuery viaRequest : Bool) : Except String GoURL :=
  let base : GoURL :=
    { scheme := scheme, rawQuery := String.mk rawQuery, forceQuery := forceQuery }
  if ¬ startsWith rest ['/'] then
    if scheme ≠ "" then .ok { base with opq := String.mk rest }
    else if viaRequest then .error "invalid URI for request"
    else
      let segment := match cutAt '/' rest with | none => rest | some (a, _) => a
      if segment.contains ':' then
        .error "first path segment in URL cannot contain colon"
      else finishPath base rest
  else
    if (scheme ≠ "" ∨ (¬ viaRequest ∧ ¬ startsWith rest ['/', '/', '/'])) ∧
        startsWith rest ['/', '/'] then
      let auth0 := rest.drop 2
      let (authority, rest2) :=
        match cutAt '/' auth0 with
        | none => (auth0, ([] : List Char))
        | some (a, b) => (a, '/' :: b)
      match parseAuthorityGo authority with
      | .error e => .error e
      | .ok (user, host) =>
        finishPath { base with user := user, host := String.mk host } rest2
    else
      let base2 := if scheme ≠ "" then { base with omitHost := true } else base
      finishPath base2 rest

/-- net/url parse(rawURL, viaRequest): control characters, the empty and
"*" special cases, scheme extraction (lowercased), the trailing-?
ForceQuery rule, then parseGo2. -/
def parseGo (rawURL : List Char) (viaRequest : Bool) : Except String GoURL :=
  if hasCtl rawURL then .error "net/url: invalid control character in URL"
  else if rawURL = [] ∧ viaRequest then .error "empty url"
  else if rawURL = [Char.ofNat 42] then .ok { path := "*" }
  else
    match getSchemeAux rawURL 0 rawURL with
    | .error e => .error e
    | .ok (sch, rest0) =>
      let scheme := lowerStr (String.mk sch)
      if rest0.getLast? = some '?' ∧ ¬ rest0.dropLast.contains '?' then
        parseGo2 scheme rest0.dropLast [] true viaRequest
      else
        match cutAt '?' rest0 with
        | none => parseGo2 scheme rest0 [] false viaRequest
        | some (a, b) => parseGo2 scheme a b false viaRequest

/-- url.Parse: split off the fragment at the first '#', parse the rest as a
URI reference, then set the fragment. -/
def urlParse (rawURL : String) : Except String GoURL :=
  match cutAt '#' rawURL.data with
  | none => parseGo rawURL.data false
  | some (u, frag) =>
    match parseGo u false with
    | .error e => .error e
    | .ok url =>
      match frag with
      | [] => .ok url
      | f =>
        match setFragmentGo url f with
        | none => .error "invalid URL escape"
        | some u2 => .ok u2

/-- url.ParseRequestURI: the uri must be an absolute URL or an absolute
path; '#' is not special. -/
def parseRequestURI (rawURL : String) : Except String GoURL :=
  parseGo rawURL.data true

/-- One pass of the segment loop of net/url resolvePath (dst starts as
"/" and always keeps a leading '/'). -/
def resolveSegs : Nat → List Char → List Char → Bool → List Char
  | 0, _, dst, _ => dst
  | fuel + 1, remaining, dst, first =>
    let cut := cutAt '/' remaining
    let elem := match cut with | none => remaining | some (a, _) => a
    let found := cut.isSome
    let rem := match cut with | none => [] | some (_, b) => b
    if elem = ['.'] then
      if found then resolveSegs fuel rem dst false
      else dst ++ ['/']
    else if elem = ['.', '.'] then
      let str := dst.drop 1
      match lastIdxOf '/' str with
      | none =>
        if found then resolveSegs fuel rem ['/'] true
        else ['/'] ++ ['/']
      | some idx =>
        let dst2 := '/' :: str.take idx
        if found then resolveSegs fuel rem dst2 first
        else dst2 ++ ['/']
    else
      let dst2 := (if first then dst else dst ++ ['/']) ++ elem
      if found then resolveSegs fuel rem dst2 false
      else dst2

/-- net/url resolvePath: join base and ref and remove dot segments. -/
def resolvePathGo (base ref : List Char) : List Char :=
  let full : List Char :=
    if ref = [] then base
    else if ref.head? ≠ some '/' then
      match lastIdxOf '/' base with
      | some i => base.take (i + 1) ++ ref
      | none => ref
    else ref
  if full = [] then []
  else
    let r := resolveSegs (full.length + 2) full ['/'] true
    match r with
    | a :: b :: rest => if b = '/' then b :: rest else a :: b :: rest
    | r0 => r0

/-- URL.ResolveReference (RFC 3986 §5.2), translated from url.go; the
setPath calls cannot fail on the validly-encoded paths supplied, the
identity fallback is dead code. -/
def resolveReference (u ref : GoURL) : GoURL :=
  let url1 := if ref.scheme = "" then { ref with scheme := u.scheme } else ref
  if ref.scheme ≠ "" ∨ ref.host ≠ "" ∨ ref.user ≠ none then
    match setPathGo url1 (resolvePathGo (escapedPath ref) []) with
    | some u2 => u2
    | none => url1
  else if ref.opq ≠ "" then
    { url1 with user := none, host := "", path := "" }
  else
    let url2 :=
      if ref.path = "" ∧ ¬ ref.forceQuery ∧ ref.rawQuery = "" then
        let u3 := { url1 with rawQuery := u.rawQuery }
        if ref.fragment = "" then
          { u3 with fragment := u.fragment, rawFragment := u.rawFragment }
        else u3
      else url1
    let url3 := { url2 with host := u.host, user := u.user }
    match setPathGo url3 (resolvePathGo (escapedPath u) (escapedPath ref)) with
    | some u4 => u4
    | none => url3

/-- URL.String without query and fragment. -/
def urlStringCore (u : GoURL) : List Char :=
  let buf0 : List Char := if u.scheme ≠ "" then u.scheme.data ++ [':'] else []
  if u.opq ≠ "" then buf0 ++ u.opq.data
  else
    let buf1 :=
      if u.scheme ≠ "" ∨ u.host ≠ "" ∨ u.user ≠ none then
        if u.omitHost ∧ u.host = "" ∧ u.user = none then buf0
        else
          let b0 :=
            if u.host ≠ "" ∨ u.path ≠ "" ∨ u.user ≠ none then buf0 ++ ['/', '/']
            else buf0
          let b1 :=
            match u.user with
            | some ui => b0 ++ ui.data ++ ['@']
            | none => b0
          if u.host ≠ "" then b1 ++ escapeGo u.host.data .host else b1
      else buf0
    let path := escapedPath u
    let buf2 :=
      if path ≠ [] ∧ path.head? ≠ some '/' ∧ u.host ≠ "" then buf1 ++ ['/']
      else buf1
    let buf3 :=
      if buf2 = [] then
        let segment := match cutAt '/' path with | none => path | some (a, _) => a
        if segment.contains ':' then buf2 ++ ['.', '/'] else buf2
      else buf2
    buf3 ++ path

/-- URL.String. -/
def urlString (u : GoURL) : String :=
  let q : List Char :=
    if u.forceQuery ∨ u.rawQuery ≠ "" then '?' :: u.rawQuery.data else []
  let f : List Char :=
    if u.fragment ≠ "" then '#' :: escapedFragment u else []
  String.mk (urlStringCore u ++ q ++ f)

/-! ## The endpoint package and the app/inst constructors -/

/-- endpoint.Endpoint wraps the parsed base URL. -/
structure Endpoint where
  url : GoURL
deriving DecidableEq

/-- endpoint.Default. -/
def endpointDefault : String := "https://api.github.com"

/-- endpoint.new: url.Parse the raw base. -/
def endpointNewRaw (raw : String) : Except String Endpoint :=
  match urlParse raw with
  | .error e => .error e
  | .ok u => .ok ⟨u⟩

/-- endpoint.New: the default GitHub API base. -/
def endpointNew : Except String Endpoint := endpointNewRaw endpointDefault

/-- endpoint.NewEnterprise: a caller-supplied base. -/
def newEnterprise (url : String) : Except String Endpoint := endpointNewRaw url

/-- Endpoint.Get: url.ParseRequestURI the uri and resolve it against the
base by URL reference-resolution. -/
def endpointGet (e : Endpoint) (uri : String) : Except String String :=
  match parseRequestURI uri with
  | .error err => .error err
  | .ok u => .ok (urlString (resolveReference e.url u))

/-- 10 minutes as a Go time.Duration (time.Minute * 10, in nanoseconds). -/
def minute10 : Nat := 600 * nsPerSec

/-- inst.Config wraps a jwt.Config. -/
structure InstConfig (K : Type) where
  config : Config K

/-- inst.new: resolve the access-tokens path for the installation against
the endpoint and build the jwt.Config with a 10-minute assertion expiry
(the fmt.Sprintf format "/app/installations/%s/access_tokens"). -/
def instNewAux (ep : Endpoint) (appID instID : String) (key : K) :
    Except String (InstConfig K) :=
  match endpointGet ep ("/app/installations/" ++ instID ++ "/access_tokens") with
  | .error e => .error e
  | .ok url =>
    .ok ⟨{ jwt := { appID := appID, privateKey := key, expires := minute10 },
           repositories := {}, tokenURL := url }⟩

/-- inst.NewConfig: the default endpoint. -/
def instNewConfig (appID instID : String) (key : K) :
    Except String (InstConfig K) :=
  match endpointNew with
  | .error e => .error e
  | .ok ep => instNewAux ep appID instID key

/-- inst.NewEnterpriseConfig: a caller-supplied endpoint. -/
def instNewEnterpriseConfig (url appID instID : String) (key : K) :
    Except String (InstConfig K) :=
  match newEnterprise url with
  | .error e => .error e
  | .ok ep => instNewAux ep appID instID key

/-- app.Config wraps a JWT identity. -/
structure AppConfig (K : Type) where
  jwt : JWTConf K

/-- app.NewConfig (src/app/config.go lines 24-26): a 10-minute assertion
expiry; the source's error result is always nil. -/
def appNewConfig (id : String) (key : K) : AppConfig K :=
  ⟨{ appID := id, privateKey := key, expires := minute10 }⟩

/-- app.Config.InstallationConfig: delegate to inst.NewConfig. -/
def installationConfig (c : AppConfig K) (id : String) :
    Except String (InstConfig K) :=
  instNewConfig c.jwt.appID id c.jwt.privateKey

/-! ## Concrete instances used by witnesses and counterexamples -/

/-- A string contains no dot. -/
def dotFree (s : String) : Prop := ∀ c ∈ s.data, c ≠ '.'

/-- An RFC3339 parser instance that accepts exactly one instant (the one
the witnesses use); in particular it rejects the empty string, which no
RFC3339 parser accepts. -/
def ptRef : String → Option Int :=
  fun s => if s = "2050-01-01T00:00:00Z" then some 2524608000 else none

/-- An RFC3339 parser instance that rejects everything. -/
def ptNone : String → Option Int := fun _ => none

/-- A signature operation instance that signs everything with the empty
signature. -/
def sgnNil : Unit → List Nat → Except String (List Nat) := fun _ _ => Except.ok []

/-- A signature operation instance that always fails (malformed key). -/
def sgnFail : Unit → List Nat → Except String (List Nat) :=
  fun _ _ => Except.error "signing error"

/-- A JWT identity with no assertion expiry. -/
def identC5 : JWTConf Unit := { appID := "1", privateKey := (), expires := 0 }

/-- The payload `sgnNil`/`identC5` produce at any instant. -/
def payloadSample : String := "eyJhbGciOiJSUzI1NiIsInR5cCI6IkpXVCJ9.eyJpc3MiOiIxIn0."

/-- A sample outgoing request. -/
def reqSample : Request := { method := "GET", url := "https://api.github.com/app" }

/-- An underlying transport instance that answers every request with an
empty 200 response. -/
def nextConst : Request → Except String Response := fun _ => Except.ok {}

/-- A jwt.Config whose scope names two repositories. -/
def confC1 : Config Unit :=
  { jwt := identC5, repositories := { names := ["a", "b"] },
    tokenURL := "https://api.github.com/app/installations/5/access_tokens" }

/-- The body of the repository's failure test: HTTP 400 with a JSON error. -/
def errBody : String := "\x7b\"error\": \"invalid_grant\"\x7d"

/-- A 2xx response whose body is not JSON. -/
def respC3 : Response := { statusCode := 200, status := "200 OK", body := "invalid" }

/-- A 2xx response whose expires_at field is present but empty. -/
def respC4 : Response :=
  { statusCode := 200, status := "200 OK",
    body := "\x7b\"token\":\"x\",\"expires_at\":\"\"\x7d" }

/-- A 2xx response with token, RFC3339 expiry and a server token type. -/
def respC4b : Response :=
  { statusCode := 200, status := "200 OK",
    body := "\x7b\"token\":\"v1.abc\",\"expires_at\":\"2050-01-01T00:00:00Z\",\"TokenType\":\"bearer\"\x7d" }

/-- A 2xx response with a permissions object in the body. -/
def respC6 : Response :=
  { statusCode := 200, status := "200 OK",
    body := "\x7b\"token\":\"t\",\"permissions\":\x7b\"issues\":\"write\"\x7d,\"repository_selection\":\"all\"\x7d" }

/-- The parsed default endpoint. -/
def epDef : Endpoint := ⟨{ scheme := "https", host := "api.github.com" }⟩

/-- The installation config inst.NewConfig("1", "123", key) produces. -/
def cC10 : InstConfig Unit :=
  ⟨{ jwt := { appID := "1", privateKey := (), expires := minute10 },
     repositories := {},
     tokenURL := "https://api.github.com/app/installations/123/access_tokens" }⟩

/-! ## Supporting lemmas -/

/-- Every base64url output character is some alphabet character. -/
theorem b64encode_chars (bs : List Nat) :
    ∀ c ∈ b64encode bs, ∃ n, c = b64char n := by
  induction bs using b64encode.induct <;> simp_all [b64encode]

/-- No alphabet character is a dot. -/
theorem b64char_ne_dot (n : Nat) : b64char n ≠ '.' := by
  have hlt : ∀ m, m < 64 → b64char m ≠ '.' := by decide
  by_cases h : n < 64
  · exact hlt n h
  · have hlen : b64Alphabet.length = 64 := rfl
    unfold b64char
    rw [List.getD_eq_default]
    · decide
    · omega

/-- Base64url-encoded strings are dot-free. -/
theorem b64encode_dotFree (bs : List Nat) : dotFree (String.mk (b64encode bs)) := by
  intro c hc
  obtain ⟨n, rfl⟩ := b64encode_chars bs c hc
  exact b64char_ne_dot n

/-- The dynamic type of a decoded JSON value is never map[string]string. -/
theorem asMapSS_jsonToGo (j : Json) : asMapSS (some (jsonToGo j)) = none := by
  cases j <;> rfl

/-- A lookup in converted object members finds nothing or a converted
value. -/
theorem lookupLast_fields (k : String) (fs : List (String × Json)) :
    lookupLast k (jsonToGoFields fs) = none ∨
    ∃ j, lookupLast k (jsonToGoFields fs) = some (jsonToGo j) := by
  induction fs with
  | nil => left; rfl
  | cons p fs ih =>
    obtain ⟨k2, v⟩ := p
    simp only [jsonToGoFields, lookupLast]
    rcases ih with h | ⟨j, h⟩
    · rw [h]
      by_cases hk : k2 = k
      · right; exact ⟨v, by simp [hk]⟩
      · left; simp [hk]
    · rw [h]; right; exact ⟨j, rfl⟩

/-- The map[string]string assertion fails on every extras lookup. -/
theorem asMapSS_rawExtras (body k : String) :
    asMapSS (lookupLast k (rawExtrasStr body)) = none := by
  unfold rawExtrasStr
  cases h : jparse body with
  | none => rfl
  | some j =>
    cases j with
    | obj fs =>
      rcases lookupLast_fields k fs with h2 | ⟨j2, h2⟩
      · rw [h2]; rfl
      · rw [h2]; exact asMapSS_jsonToGo j2
    | null => rfl
    | bool b => rfl
    | num n => rfl
    | str s => rfl
    | arr xs => rfl

/-- Every token the exchange returns carries the best-effort extras bag of
the whole body. -/
theorem tokenFromResponse_ok_extras (pt : String → Option Int)
    (resp : Response) (tok : Token) :
    tokenFromResponse pt resp = Except.ok tok →
    tok.extras = rawExtrasStr resp.body := by
  intro h
  unfold tokenFromResponse at h
  by_cases hs : resp.statusCode < 200 ∨ 299 < resp.statusCode
  · rw [if_pos hs] at h; exact absurd h (by simp)
  · rw [if_neg hs] at h
    cases hd : decodeTokenRes (jparse resp.body) with
    | none => rw [hd] at h; exact absurd h (by simp)
    | some tr =>
      rw [hd] at h
      dsimp only at h
      by_cases he : tr.expiresAt = ""
      · rw [if_pos he] at h
        cases h
        rfl
      · rw [if_neg he] at h
        cases hp : pt tr.expiresAt with
        | none => rw [hp] at h; exact absurd h (by simp)
        | some t =>
          rw [hp] at h
          cases h
          rfl

/-! ## Claim theorems -/

/-- C1 (code bug): for a token exchange configured with repository names
["a", "b"], the scope is JSON-encoded (field "repositories" in order, the
empty IDs field omitted) — but the POST request jwtSource.Token builds
carries no body at all: the source encodes the scope into a buffer and
then passes nil to http.NewRequest, so the encoded scope is discarded and
the claimed body round-trip cannot happen on the wire. -/
theorem c1_scope_encoded_but_body_nil :
    Except.map Request.body (tokenRequestE sgnNil confC1 0) = Except.ok none ∧
    repositoriesJson confC1.repositories =
      Json.obj [("repositories", Json.arr [Json.str "a", Json.str "b"])] :=
  ⟨rfl, rfl⟩

/-- C3 counterexample: a response with HTTP status 200 whose body is not
JSON makes the exchange fail, so "the exchange succeeds exactly when the
status code is in 200-299" is false as stated. -/
theorem c3_counterexample :
    respC3.statusCode = 200 ∧ (tokenFromResponse ptNone respC3).isOk = false :=
  ⟨rfl, rfl⟩

/-- C3 amended: the exchange returns a TokenRetrievalError carrying the
HTTP status and the raw body verbatim exactly when the status is outside
200-299 (a 2xx status proceeds to body parsing, which may still fail);
the rendered message of such an error contains the status text and the
body, and for status "400 Bad Request" with the invalid_grant body it is
the exact string the repository's own test asserts. -/
theorem c3_status_policy :
    (∀ (pt : String → Option Int) (resp : Response),
      (resp.statusCode < 200 ∨ 299 < resp.statusCode) ↔
        tokenFromResponse pt resp =
          Except.error (TokenError.retrieveError resp.status resp.body)) ∧
    (∀ st bd, ∃ p q, renderTokenError (TokenError.retrieveError st bd) = p ++ st ++ q) ∧
    (∀ st bd, ∃ p q, renderTokenError (TokenError.retrieveError st bd) = p ++ bd ++ q) ∧
    renderTokenError (TokenError.retrieveError "400 Bad Request" errBody) =
      "oauth2: cannot fetch token: 400 Bad Request\nResponse: " ++ errBody := by
  refine ⟨fun pt resp => ⟨fun h => ?_, fun h => ?_⟩,
    fun st bd => ⟨"oauth2: cannot fetch token: ", "\nResponse: " ++ bd, by
      simp [renderTokenError, String.append_assoc]⟩,
    fun st bd => ⟨"oauth2: cannot fetch token: " ++ st ++ "\nResponse: ", "", by
      simp [renderTokenError, String.append_assoc]⟩, rfl⟩
  · rw [tokenFromResponse, if_pos h]
  · by_cases hs : resp.statusCode < 200 ∨ 299 < resp.statusCode
    · exact hs
    · exfalso
      rw [tokenFromResponse, if_neg hs] at h
      cases hd : decodeTokenRes (jparse resp.body) with
      | none => rw [hd] at h; exact absurd h (by simp)
      | some tr =>
        rw [hd] at h
        dsimp only at h
        by_cases he : tr.expiresAt = ""
        · rw [if_pos he] at h; exact absurd h (by simp)
        · rw [if_neg he] at h
          cases hp : pt tr.expiresAt with
          | none => rw [hp] at h; exact absurd h (by simp)
          | some t => rw [hp] at h; exact absurd h (by simp)

/-- C4 counterexample: a 2xx response whose body carries a present but
empty "expires_at" field — which no RFC3339 parser accepts — does not make
the exchange fail: the source only parses a nonempty ExpiresAt, so the
token is returned with no expiry. -/
theorem c4_counterexample :
    ptRef "" = none ∧
    Except.map (fun t => (t.accessToken, t.tokenType, t.expiry))
        (tokenFromResponse ptRef respC4) =
      Except.ok ("x", "token", (none : Option Int)) :=
  ⟨rfl, rfl⟩

/-- C4 amended: for every 2xx exchange whose body decodes on the required
fields, the token's Value is the body's "token" field, TokenType is the
literal "token" whatever token type the server sent, and the expiry is the
RFC3339-parsed "expires_at" when that decoded field is nonempty, the
zero/unset value when it is absent or empty; a nonempty "expires_at" that
fails RFC3339 parsing fails the exchange. -/
theorem c4_success_fields :
    ∀ (pt : String → Option Int) (resp : Response) (tr : TokenRes),
      200 ≤ resp.statusCode → resp.statusCode ≤ 299 →
      decodeTokenRes (jparse resp.body) = some tr →
      ((tr.expiresAt = "" →
        Except.map (fun t => (t.accessToken, t.tokenType, t.expiry))
            (tokenFromResponse pt resp) =
          Except.ok (tr.accessToken, "token", (none : Option Int))) ∧
       (∀ t, tr.expiresAt ≠ "" → pt tr.expiresAt = some t →
        Except.map (fun t2 => (t2.accessToken, t2.tokenType, t2.expiry))
            (tokenFromResponse pt resp) =
          Except.ok (tr.accessToken, "token", some t)) ∧
       (tr.expiresAt ≠ "" → pt tr.expiresAt = none →
        (tokenFromResponse pt resp).isOk = false)) := by
  intro pt resp tr h1 h2 hd
  have hs : ¬(resp.statusCode < 200 ∨ 299 < resp.statusCode) := by omega
  refine ⟨fun he => ?_, fun t he hp => ?_, fun he hp => ?_⟩ <;>
    rw [tokenFromResponse, if_neg hs, hd] <;> dsimp only
  · rw [if_pos he]; rfl
  · rw [if_neg he, hp]; rfl
  · rw [if_neg he, hp]; rfl

/-- C4 witness: a 2xx response carrying token "v1.abc", an RFC3339 expiry
and a server-sent token type "bearer" yields exactly
(Value "v1.abc", TokenType "token", the parsed expiry). -/
theorem c4_success_fields_witness :
    Except.map (fun t => (t.accessToken, t.tokenType, t.expiry))
        (tokenFromResponse ptRef respC4b) =
      Except.ok ("v1.abc", "token", some (2524608000 : Int)) :=
  (c4_success_fields ptRef respC4b
      ⟨"v1.abc", "2050-01-01T00:00:00Z", "bearer"⟩
      (by decide) (by decide) (by rfl)).2.1 2524608000 (by decide) (by rfl)

/-- C5 (jws modelled from the spec): every successful Payload is
encodedHeader "." encodedClaims "." encodedSignature where the header is
the fixed RS256/JWT header, the claims are the claim set with issuer the
AppID and expiry now + Expires seconds exactly when Expires is positive,
the signature is the private-key signature of the first two segments, and
all three segments are dot-free base64url; with no Expires the claim set
has no expiry field and is independent of the signing instant. -/
theorem c5_payload_shape :
    ∀ (K : Type) (sgn : K → List Nat → Except String (List Nat))
      (j : JWTConf K) (now : Nat) (s : String),
      payloadE sgn j now = Except.ok s →
      (∃ sig, sgn j.privateKey
          (strBytes (b64s (headerJson defaultHeader) ++ "." ++
            b64s (claimsJson (claimSetOf j now)))) = Except.ok sig ∧
        s = b64s (headerJson defaultHeader) ++ "." ++
            b64s (claimsJson (claimSetOf j now)) ++ "." ++
            String.mk (b64encode sig) ∧
        dotFree (b64s (headerJson defaultHeader)) ∧
        dotFree (b64s (claimsJson (claimSetOf j now))) ∧
        dotFree (String.mk (b64encode sig))) ∧
      (claimSetOf j now).iss = j.appID ∧
      ((claimSetOf j now).exp =
        if 0 < j.expires then some ((now + j.expires) / nsPerSec) else none) ∧
      (j.expires = 0 → ∀ n1 n2 : Nat, claimSetOf j n1 = claimSetOf j n2 ∧
        (claimSetOf j n1).exp = none ∧ payloadE sgn j n1 = payloadE sgn j n2) := by
  intro K sgn j now s h
  rw [payloadE, jwsEncode] at h
  refine ⟨?_, rfl, rfl, fun hz n1 n2 => ?_⟩
  · cases hg : sgn j.privateKey
        (strBytes (b64s (headerJson defaultHeader) ++ "." ++
          b64s (claimsJson (claimSetOf j now)))) with
    | error e => rw [hg] at h; exact absurd h (by simp)
    | ok sig =>
      rw [hg] at h
      refine ⟨sig, rfl, ?_, b64encode_dotFree _, b64encode_dotFree _,
        b64encode_dotFree _⟩
      cases h
      simp [String.append_assoc]
  · have hcs : ∀ n : Nat, claimSetOf j n = { iss := j.appID, exp := none } := by
      intro n
      simp [claimSetOf, hz]
    refine ⟨by rw [hcs n1, hcs n2], by rw [hcs n1], ?_⟩
    rw [payloadE, payloadE, hcs n1, hcs n2]

/-- C5 witness: the identity with app ID "1" and no Expires, with the
concrete empty-signature operation, at instant 0 — its claim set names
issuer "1" and the payload is the same at instants 0 and 7. -/
theorem c5_payload_shape_witness :
    (claimSetOf identC5 0).iss = identC5.appID ∧
    (claimSetOf identC5 0).exp = none ∧
    payloadE sgnNil identC5 0 = payloadE sgnNil identC5 7 := by
  have h := c5_payload_shape Unit sgnNil identC5 0 payloadSample (by rfl)
  exact ⟨h.2.1, ((h.2.2.2 rfl 0 7)).2.1, ((h.2.2.2 rfl 0 7)).2.2⟩

/-- C6: on every 2xx exchange whose required fields parse, the token is
returned and carries as its Extras bag the whole body decoded best-effort
into a string-to-dynamic-value mapping; the secondary decode is total —
when the body is not a JSON object it recovers the empty bag instead of
failing the exchange. -/
theorem c6_extras_best_effort :
    ∀ (pt : String → Option Int) (resp : Response) (tr : TokenRes),
      200 ≤ resp.statusCode → resp.statusCode ≤ 299 →
      decodeTokenRes (jparse resp.body) = some tr →
      (tr.expiresAt = "" ∨ ∃ t, pt tr.expiresAt = some t) →
      (∃ tok, tokenFromResponse pt resp = Except.ok tok ∧
        tok.extras = rawExtrasStr resp.body) ∧
      (∀ b2 : String, (∀ fs, jparse b2 ≠ some (Json.obj fs)) →
        rawExtrasStr b2 = []) := by
  intro pt resp tr h1 h2 hd hexp
  have hs : ¬(resp.statusCode < 200 ∨ 299 < resp.statusCode) := by omega
  constructor
  · rcases hexp with he | ⟨t, hp⟩
    · refine ⟨tokenOf tr resp.body, ?_, rfl⟩
      rw [tokenFromResponse, if_neg hs, hd]
      dsimp only
      rw [if_pos he]
    · by_cases he : tr.expiresAt = ""
      · refine ⟨tokenOf tr resp.body, ?_, rfl⟩
        rw [tokenFromResponse, if_neg hs, hd]
        dsimp only
        rw [if_pos he]
      · refine ⟨{ tokenOf tr resp.body with expiry := some t }, ?_, rfl⟩
        rw [tokenFromResponse, if_neg hs, hd]
        dsimp only
        rw [if_neg he, hp]
  · intro b2 hb
    rw [rawExtrasStr]
    cases hj : jparse b2 with
    | none => rfl
    | some j =>
      cases j with
      | obj fs => exact absurd hj (hb fs)
      | null => rfl
      | bool b => rfl
      | num n => rfl
      | str s2 => rfl
      | arr xs => rfl

/-- C6 witness: a 2xx response with a permissions object and a
repository_selection field yields a token whose extras are the decoded
body, and a non-object body recovers the empty bag. -/
theorem c6_extras_best_effort_witness :
    (∃ tok, tokenFromResponse ptRef respC6 = Except.ok tok ∧
      tok.extras = rawExtrasStr respC6.body) ∧
    rawExtrasStr "not json" = [] := by
  have h := c6_extras_best_effort ptRef respC6 ⟨"t", "", ""⟩
    (by decide) (by decide) (by rfl) (Or.inl rfl)
  have hnj : jparse "not json" = none := rfl
  exact ⟨h.1, h.2 "not json" (fun fs hfs => by rw [hnj] at hfs; exact Option.noConfusion hfs)⟩

/-- C7: transport.RoundTrip signs a fresh assertion at the dispatch
instant and, on success, delegates to the wrapped transport with the
Accept header and the Authorization header "Bearer " plus that assertion
appended; when signing fails it returns that error for every underlying
transport, i.e. without dispatching the request. -/
theorem c7_roundtrip_behavior :
    ∀ (K : Type) (sgn : K → List Nat → Except String (List Nat))
      (j : JWTConf K) (now : Nat)
      (next : Request → Except String Response) (r : Request),
      (∀ e, payloadE sgn j now = Except.error e →
        roundTrip sgn j now next r = Except.error e) ∧
      (∀ p, payloadE sgn j now = Except.ok p →
        roundTrip sgn j now next r =
          next (addHeader (addHeader r "Accept" "application/vnd.github.v3+json")
            "Authorization" ("Bearer " ++ p))) := by
  intro K sgn j now next r
  constructor
  · intro e he
    rw [roundTrip, he]
  · intro p hp
    rw [roundTrip, hp]

/-- C7 witness: with an always-failing signer the round trip returns the
signing error (for the concrete underlying transport), and with the
empty-signature signer it delegates with both headers appended. -/
theorem c7_roundtrip_behavior_witness :
    roundTrip sgnFail identC5 0 nextConst reqSample =
      Except.error "signing error" ∧
    roundTrip sgnNil identC5 0 nextConst reqSample =
      nextConst (addHeader
        (addHeader reqSample "Accept" "application/vnd.github.v3+json")
        "Authorization" ("Bearer " ++ payloadSample)) :=
  ⟨(c7_roundtrip_behavior Unit sgnFail identC5 0 nextConst reqSample).1
      "signing error" (by rfl),
   (c7_roundtrip_behavior Unit sgnNil identC5 0 nextConst reqSample).2
      payloadSample (by rfl)⟩

/-- C8 counterexample: NewEnterprise accepts the non-absolute base
"/enterprise" (its parse succeeds with an empty scheme), and Endpoint.Get
rejects "a" even though "a" is a valid URI reference (url.Parse accepts
it): construction does not fail on every non-absolute base and Get does
not succeed on every valid URI reference. -/
theorem c8_counterexample :
    Except.map (fun e => e.url.scheme) (newEnterprise "/enterprise") =
      Except.ok "" ∧
    (urlParse "a").isOk = true ∧
    endpointNew = Except.ok epDef ∧
    (endpointGet epDef "a").isOk = false :=
  ⟨rfl, rfl, rfl, rfl⟩

/-- C8 amended: endpoint construction fails exactly when Go URL parsing
rejects the base (relative bases are accepted); Endpoint.Get fails exactly
when the uri is not an absolute URL and not an absolute path (Go
ParseRequestURI), and otherwise returns the URL reference-resolution of
the uri against the base — e.g. dot segments are resolved away, not
concatenated — with no side effects (the endpoint is unchanged by Get). -/
theorem c8_resolution :
    (∀ raw : String, (newEnterprise raw).isOk = (urlParse raw).isOk) ∧
    (∀ (e : Endpoint) (uri : String),
      endpointGet e uri =
        Except.map (fun u => urlString (resolveReference e.url u))
          (parseRequestURI uri)) ∧
    endpointGet epDef "/a/../b?x=1" = Except.ok "https://api.github.com/b?x=1" := by
  refine ⟨fun raw => ?_, fun e uri => ?_, rfl⟩
  · rw [newEnterprise, endpointNewRaw]
    cases urlParse raw <;> rfl
  · rw [endpointGet]
    cases parseRequestURI uri <;> rfl

/-- C9: inst.Config.Permissions can never return a permission map: the
generic JSON decode stores for "permissions" a value whose dynamic type is
map[string]interface (or nothing), so the assertion to map[string]string
fails for every response the token endpoint can send, well-formed
permissions objects included. -/
theorem c9_permissions_never_succeed :
    ∀ (pt : String → Option Int) (resp : Response),
      (permissionsOf pt resp).isOk = false := by
  intro pt resp
  rw [permissionsOf]
  cases ht : tokenFromResponse pt resp with
  | error e => rfl
  | ok tok =>
    have hx : tok.extras = rawExtrasStr resp.body :=
      tokenFromResponse_ok_extras pt resp tok ht
    dsimp only
    rw [hx, asMapSS_rawExtras]
    rfl

/-- C10: app.NewConfig, inst.NewConfig, inst.NewEnterpriseConfig and
app.Config.InstallationConfig all hard-code the assertion Expires duration
to time.Minute * 10, and an identity with that duration always signs a
claim set whose expiry is the current Unix second plus 600. -/
theorem c10_expiry_ten_minutes :
    (∀ (K : Type) (id : String) (key : K),
      (appNewConfig id key).jwt.expires = minute10) ∧
    (∀ (K : Type) (a i : String) (k : K) (c : InstConfig K),
      instNewConfig a i k = Except.ok c → c.config.jwt.expires = minute10) ∧
    (∀ (K : Type) (u a i : String) (k : K) (c : InstConfig K),
      instNewEnterpriseConfig u a i k = Except.ok c →
        c.config.jwt.expires = minute10) ∧
    (∀ (K : Type) (c : AppConfig K) (i : String) (ic : InstConfig K),
      installationConfig c i = Except.ok ic → ic.config.jwt.expires = minute10) ∧
    (∀ (K : Type) (j : JWTConf K) (now : Nat), j.expires = minute10 →
      (claimSetOf j now).exp = some (now / nsPerSec + 600)) := by
  have haux : ∀ (K : Type) (ep : Endpoint) (a i : String) (k : K)
      (c : InstConfig K),
      instNewAux ep a i k = Except.ok c → c.config.jwt.expires = minute10 := by
    intro K ep a i k c h
    rw [instNewAux] at h
    cases hg : endpointGet ep ("/app/installations/" ++ i ++ "/access_tokens") with
    | error e => rw [hg] at h; exact absurd h (by simp)
    | ok url =>
      rw [hg] at h
      dsimp only at h
      cases h
      rfl
  refine ⟨fun K id key => rfl, fun K a i k c h => ?_, fun K u a i k c h => ?_,
    fun K c i ic h => ?_, fun K j now hj => ?_⟩
  · rw [instNewConfig] at h
    cases he : endpointNew with
    | error e => rw [he] at h; exact absurd h (by simp)
    | ok ep => rw [he] at h; exact haux K ep a i k c h
  · rw [instNewEnterpriseConfig] at h
    cases he : newEnterprise u with
    | error e => rw [he] at h; exact absurd h (by simp)
    | ok ep => rw [he] at h; exact haux K ep a i k c h
  · rw [installationConfig, instNewConfig] at h
    cases he : endpointNew with
    | error e => rw [he] at h; exact absurd h (by simp)
    | ok ep => rw [he] at h; exact haux K ep _ i _ ic h
  · rw [claimSetOf, hj]
    have hpos : 0 < minute10 := by decide
    rw [if_pos hpos]
    have : (now + minute10) / nsPerSec = now / nsPerSec + 600 := by
      rw [minute10]
      exact Nat.add_mul_div_right now 600 (by decide)
    rw [this]

/-- C10 witness: inst.NewConfig("1", "123", key) produces the concrete
config with the default endpoint's access-tokens URL, a 10-minute Expires,
and claim sets expiring 600 seconds after the signing instant. -/
theorem c10_expiry_ten_minutes_witness :
    cC10.config.jwt.expires = minute10 ∧
    (claimSetOf cC10.config.jwt 5000000000).exp = some (5 + 600) :=
  ⟨c10_expiry_ten_minutes.2.1 Unit "1" "123" () cC10 (by rfl),
   c10_expiry_ten_minutes.2.2.2.2 Unit cC10.config.jwt 5000000000 (by rfl)⟩

end GithubAuth
